import Mathlib

/-
Shallow embedding of the ATS_Streamlit pipeline (src/ats_engine.py and the
pipeline part of src/app.py).

Modelling conventions:
* The remote OpenAI services (chat completions and embeddings) and the
  external document libraries (pypdf's page extractor, python-docx's
  paragraph list) are external collaborators; they are passed in as
  function parameters.  A remote call that raises a Python exception is
  modelled as `Except.error msg` where `msg` is the exception message
  (`str(e)` in the Python source); a normal return is `Except.ok`.
* Floating-point scores are modelled as rationals (every IEEE float value
  is a rational number); the mathematical cosine-similarity formula of the
  spec, which involves square roots, is stated separately over the reals.
* Python's stable `list.sort(key=..., reverse=True)` is modelled with
  `List.mergeSort` and the comparator "a before b iff b.score ≤ a.score":
  both are stable descending sorts, and the stable sorted permutation of a
  list is unique, so the two agree as functions.
-/

namespace ATS

/-- Python `text.replace("\n", " ")` (src/ats_engine.py line 112).  The
pattern is the single character `'\n'`, so Python's substring replacement
coincides with character-wise substitution. -/
def replaceNewlines (s : String) : String :=
  String.mk (s.data.map (fun c => if c = '\n' then ' ' else c))

/-- An entry of `candidates_data` (src/app.py tab1): `{"name": ..., "resume": ...}`. -/
structure Candidate where
  name : String
  resume : String
  deriving DecidableEq, Repr

/-- An entry of `scored_candidates` (src/ats_engine.py lines 132-136):
`{"name": ..., "score": ..., "resume": ...}`. -/
structure RankedCandidate where
  name : String
  score : ℚ
  resume : String
  deriving DecidableEq, Repr

/-- The remote embedding service (`client.embeddings.create` followed by
`.data[0].embedding`, src/ats_engine.py lines 113-116), abstracted over the
vector type it returns. -/
abbrev EmbSvc (Vec : Type) := String → Except String Vec

/-- The remote chat-completion service (`client.chat.completions.create`):
arguments are the system message, the user message and the temperature
(`none` when the call does not pass one). -/
abbrev ChatSvc := String → String → Option ℚ → Except String String

/-- A Streamlit UploadedFile: its byte content plus the current read
position of the stream. -/
structure UploadedFile where
  data : List Nat
  pos : Nat

/-- Python `uploaded_file.seek(n)`. -/
def seek (f : UploadedFile) (n : Nat) : UploadedFile :=
  { f with pos := n }

/-- Python `uploaded_file.read()`: the bytes from the current position on. -/
def readAll (f : UploadedFile) : List Nat :=
  f.data.drop f.pos

/-- Python `page.extract_text() or ""` (src/ats_engine.py line 74): a page
with no extractable text (`None`, modelled as `none`) contributes the empty
string. -/
def orEmpty : Option String → String
  | some s => s
  | none => ""

/-- src/ats_engine.py lines 67-75, `extract_text_from_pdf`: seek to the
start of the stream, hand the bytes to the external pypdf reader (the
parameter `reader`, which returns the per-page extractable text in page
order), accumulate `text += page.extract_text() or ""` over the pages, and
strip the result. -/
def extract_text_from_pdf (reader : List Nat → List (Option String))
    (uploaded_file : UploadedFile) : String :=
  let f := seek uploaded_file 0
  let pages := reader (readAll f)
  (pages.foldl (fun text page => text ++ orEmpty page) ("")).trim

/-- src/ats_engine.py lines 191-200, the body of `extract_text_from_docx`:
the external `docx.Document(...)` paragraph list is the parameter;
accumulate `text += paragraph.text + '\n'` and strip.
NOTE: src/ats_engine.py never imports the `docx` module, so in Python every
call to this function raises `NameError: name 'docx' is not defined`; this
definition embeds the dataflow of the function body itself. -/
def extract_text_from_docx (paragraphs : List String) : String :=
  (paragraphs.foldl (fun text p => text ++ p ++ "\n") ("")).trim

/-- The fixed system prompt of `clean_and_structure_resume`
(src/ats_engine.py lines 84-91). -/
def cleaning_system_prompt : String :=
  "\n    You are an expert Document Processor. Your task is to clean up raw, noisy text extracted from a resume.\n\n    INSTRUCTIONS:\n    1. Remove all noise: page numbers, headers, footers, repetitive lines, and obvious contact information (phone numbers, email addresses, URLs).\n    2. Structure the remaining core content using the following tags only: [SUMMARY], [SKILLS], [EXPERIENCE], [EDUCATION].\n    3. Return only the cleaned and tagged text. DO NOT add any extra commentary or introductory phrases.\n    "

/-- src/ats_engine.py lines 81-104, `clean_and_structure_resume`: one chat
call at temperature 0.0; on success return the message content, on any
exception return the string `f"Error during cleaning: {e}"`. -/
def clean_and_structure_resume (chat : ChatSvc) (raw_resume_text : String) : String :=
  match chat cleaning_system_prompt raw_resume_text (some 0) with
  | Except.ok content => content
  | Except.error e => "Error during cleaning: " ++ e

/-- src/ats_engine.py lines 110-117, `get_embedding`: replace newlines by
spaces, then send the text to the embedding service. -/
def get_embedding {Vec : Type} (emb : EmbSvc Vec) (text : String) : Except String Vec :=
  let text := replaceNewlines text
  emb text

/-- The sort comparator corresponding to
`scored_candidates.sort(key=lambda x: x["score"], reverse=True)`
(src/ats_engine.py line 138): `a` may come before `b` iff `b.score ≤ a.score`. -/
def byScoreDesc (a b : RankedCandidate) : Bool :=
  decide (b.score ≤ a.score)

/-- The loop of src/ats_engine.py lines 128-136: for each candidate in
order, embed its resume, score it against the job-description vector with
the external scoring function `cos` (sklearn's `cosine_similarity`), and
append `{"name": ..., "score": ..., "resume": ...}`.  A raised exception
(an `Except.error` from the embedding service) propagates: the loop has no
try/except. -/
def scoreCandidates {Vec : Type} (emb : EmbSvc Vec) (cos : Vec → Vec → ℚ)
    (jd_vector : Vec) : List Candidate → Except String (List RankedCandidate)
  | [] => Except.ok []
  | candidate :: rest =>
    match get_embedding emb candidate.resume with
    | Except.error e => Except.error e
    | Except.ok resume_vector =>
      match scoreCandidates emb cos jd_vector rest with
      | Except.error e => Except.error e
      | Except.ok scored =>
        Except.ok ({ name := candidate.name,
                     score := cos jd_vector resume_vector,
                     resume := candidate.resume } :: scored)

/-- src/ats_engine.py lines 120-139, `rank_candidates`: embed the job
description, score every candidate in input order, then stable-sort
descending by score. -/
def rank_candidates {Vec : Type} (emb : EmbSvc Vec) (cos : Vec → Vec → ℚ)
    (job_description : String) (candidates_data : List Candidate) :
    Except String (List RankedCandidate) :=
  match get_embedding emb job_description with
  | Except.error e => Except.error e
  | Except.ok jd_vector =>
    match scoreCandidates emb cos jd_vector candidates_data with
    | Except.error e => Except.error e
    | Except.ok scored_candidates =>
      Except.ok (scored_candidates.mergeSort byScoreDesc)

/-- The fixed system prompt of `generate_compliant_feedback`
(src/ats_engine.py lines 148-163), abridged to its section headers; no
claim depends on the prompt wording. -/
def feedback_system_prompt : String :=
  "\n    You are an Expert Resume Consultant and a Compliance Officer. Your primary goal is to provide **highly specific, tangible, and constructive feedback** based *only* on the content of the resume and the requirements of the job description (JD).\n\n    INSTRUCTIONS FOR TANGIBLE FEEDBACK: Analyze the Weak Link; Focus on Specificity; Provide Actionable Advice.\n\n    THE RED ZONE (STRICTLY FORBIDDEN - Legal Compliance): Do NOT mention: Personality, tone, enthusiasm, culture fit, age, gender, or soft skills.\n\n    THE GREEN ZONE (ONLY USE THESE): Hard Skills, Objective Metrics, Demonstrated Specificity, and Mismatched Depth.\n\n    Write the polite and legally safe rejection email using this structured, tangible advice.\n    "

/-- The user prompt of `generate_compliant_feedback`
(src/ats_engine.py lines 165-173). -/
def feedback_user_prompt (job_description candidate_resume : String) : String :=
  "\n    JOB DESCRIPTION:\n    " ++ job_description ++
    "\n\n    CLEANED CANDIDATE RESUME:\n    " ++ candidate_resume ++
    "\n\n    Write the rejection email.\n    "

/-- src/ats_engine.py lines 145-185, `generate_compliant_feedback`: one
chat call (no temperature argument); on success return the message content,
on any exception return the string `f"Error: {e}"`. -/
def generate_compliant_feedback (chat : ChatSvc)
    (job_description candidate_resume : String) : String :=
  match chat feedback_system_prompt
      (feedback_user_prompt job_description candidate_resume) none with
  | Except.ok content => content
  | Except.error e => "Error: " ++ e

/-- src/app.py tab1 lines 78-103, restricted to the part after extraction
(format dispatch and extraction produce `raw_resume_text` for each file;
here each file is given as its `(name, raw_resume_text)` pair): a candidate
is appended iff its raw text is non-empty (`if raw_resume_text:`), with
`resume` set to `clean_and_structure_resume(raw_resume_text)`. -/
def build_candidate_list (chat : ChatSvc) : List (String × String) → List Candidate
  | [] => []
  | (name, raw) :: rest =>
    if raw = "" then build_candidate_list chat rest
    else { name := name, resume := clean_and_structure_resume chat raw } ::
      build_candidate_list chat rest

/-- Dot product of two vectors given as lists (truncating at the shorter
length, as a pointwise product does). -/
def dotProduct (a b : List ℝ) : ℝ :=
  (List.zipWith (fun x y => x * y) a b).sum

/-- Euclidean norm of a vector given as a list. -/
noncomputable def l2norm (a : List ℝ) : ℝ :=
  Real.sqrt (dotProduct a a)

/-- The score formula of the spec and of sklearn's `cosine_similarity`
(src/ats_engine.py line 130) in exact real arithmetic:
`dot(a,b) / (||a|| * ||b||)`.  (Division by zero is zero in Lean, matching
sklearn's convention of a zero score for a zero vector.) -/
noncomputable def cosine_similarity (a b : List ℝ) : ℝ :=
  dotProduct a b / (l2norm a * l2norm b)

/-- Stub embedding service used in witnesses: embeds a string as the
one-element vector holding its length. -/
def embStub : EmbSvc (List ℚ) :=
  fun s => Except.ok [(s.length : ℚ)]

/-- Stub embedding service that fails on one specific text. -/
def embFailStub : EmbSvc (List ℚ) :=
  fun s => if s = "bad resume" then Except.error ("boom") else Except.ok [(s.length : ℚ)]

/-- Stub scoring function used in witnesses: product of the vector heads. -/
def cosStub : List ℚ → List ℚ → ℚ :=
  fun a b => a.headD 0 * b.headD 0

/-- Stub chat service that always fails with message "boom". -/
def chatFailStub : ChatSvc :=
  fun _ _ _ => Except.error ("boom")

/-- Stub chat service that always succeeds, echoing the user message. -/
def chatEchoStub : ChatSvc :=
  fun _ user _ => Except.ok user

/-- Stub chat service that succeeds and returns a draft whose text happens
to be exactly the failure marker "Error: boom". -/
def chatCollideStub : ChatSvc :=
  fun _ _ _ => Except.ok ("Error: boom")

/-- A concrete candidate pair used in concrete runs: candidate A with an
ordinary resume. -/
def candA : Candidate :=
  { name := "A", resume := "good resume" }

/-- A concrete candidate pair used in concrete runs: candidate B, whose
resume is the text `embFailStub` fails on. -/
def candB : Candidate :=
  { name := "B", resume := "bad resume" }

/-- Expected first ranked entry of the concrete run used in the C1
witness: candidate A scored with `embStub`/`cosStub` against "the job". -/
def rankedA : RankedCandidate :=
  { name := "A", score := 77, resume := "good resume" }

/-- Expected second ranked entry of the concrete run used in the C1
witness. -/
def rankedB : RankedCandidate :=
  { name := "B", score := 70, resume := "bad resume" }

/- ------------------------------------------------------------------ -/
/- Helper lemmas                                                      -/
/- ------------------------------------------------------------------ -/

theorem byScoreDesc_trans (a b c : RankedCandidate)
    (hab : byScoreDesc a b = true) (hbc : byScoreDesc b c = true) :
    byScoreDesc a c = true := by
  simp only [byScoreDesc, decide_eq_true_eq] at *
  exact le_trans hbc hab

theorem byScoreDesc_total (a b : RankedCandidate) :
    (byScoreDesc a b || byScoreDesc b a) = true := by
  simp only [byScoreDesc, Bool.or_eq_true, decide_eq_true_eq]
  exact le_total b.score a.score

/-- Splitting a successful `rank_candidates` run into its phases: the
job-description embedding, the scoring loop, and the final stable sort. -/
theorem rank_candidates_ok_parts {Vec : Type} (emb : EmbSvc Vec) (cos : Vec → Vec → ℚ)
    (jd : String) (cands : List Candidate) (out : List RankedCandidate)
    (h : rank_candidates emb cos jd cands = Except.ok out) :
    ∃ jdVec scored, get_embedding emb jd = Except.ok jdVec ∧
      scoreCandidates emb cos jdVec cands = Except.ok scored ∧
      out = scored.mergeSort byScoreDesc := by
  cases hjd : get_embedding emb jd with
  | error e =>
    simp only [rank_candidates, hjd] at h
    exact Except.noConfusion h
  | ok jdVec =>
    cases hsc : scoreCandidates emb cos jdVec cands with
    | error e =>
      simp only [rank_candidates, hjd, hsc] at h
      exact Except.noConfusion h
    | ok scored =>
      simp only [rank_candidates, hjd, hsc, Except.ok.injEq] at h
      exact ⟨jdVec, scored, rfl, hsc, h.symm⟩

/-- The scoring loop succeeds with one output entry per input candidate,
in input order, preserving each candidate name and resume text. -/
theorem scoreCandidates_map {Vec : Type} (emb : EmbSvc Vec) (cos : Vec → Vec → ℚ)
    (v : Vec) (cands : List Candidate) (scored : List RankedCandidate)
    (h : scoreCandidates emb cos v cands = Except.ok scored) :
    scored.map (fun r => (r.name, r.resume)) = cands.map (fun c => (c.name, c.resume)) := by
  induction cands generalizing scored with
  | nil =>
    rw [scoreCandidates] at h
    rw [← Except.ok.inj h]
    simp
  | cons c rest ih =>
    rw [scoreCandidates] at h
    cases hemb : get_embedding emb c.resume with
    | error e =>
      rw [hemb] at h
      exact absurd h (by simp)
    | ok rv =>
      rw [hemb] at h
      cases hrest : scoreCandidates emb cos v rest with
      | error e =>
        rw [hrest] at h
        exact absurd h (by simp)
      | ok scored' =>
        rw [hrest] at h
        rw [← Except.ok.inj h]
        simp only [List.map_cons, List.map]
        rw [ih scored' hrest]

/-- Membership form of `scoreCandidates_map`. -/
theorem scoreCandidates_mem {Vec : Type} (emb : EmbSvc Vec) (cos : Vec → Vec → ℚ)
    (v : Vec) (cands : List Candidate) (scored : List RankedCandidate) (c : Candidate)
    (h : scoreCandidates emb cos v cands = Except.ok scored) (hc : c ∈ cands) :
    ∃ rc ∈ scored, rc.name = c.name ∧ rc.resume = c.resume := by
  have hmap := scoreCandidates_map emb cos v cands scored h
  have hmem : (c.name, c.resume) ∈ scored.map (fun r => (r.name, r.resume)) := by
    rw [hmap]
    exact List.mem_map.mpr ⟨c, hc, rfl⟩
  rcases List.mem_map.mp hmem with ⟨rc, hrc, heq⟩
  refine ⟨rc, hrc, ?_, ?_⟩
  · exact congrArg Prod.fst heq
  · exact congrArg Prod.snd heq

/-- If the embedding of some candidate in the list fails, the scoring loop
fails (the Python loop has no try/except, so the first exception escapes). -/
theorem scoreCandidates_error_of_mem {Vec : Type} (emb : EmbSvc Vec) (cos : Vec → Vec → ℚ)
    (v : Vec) (cands : List Candidate) (c : Candidate) (e : String)
    (hmem : c ∈ cands) (hfail : get_embedding emb c.resume = Except.error e) :
    ∃ e', scoreCandidates emb cos v cands = Except.error e' := by
  induction cands with
  | nil => cases hmem
  | cons c0 rest ih =>
    rcases List.mem_cons.mp hmem with heq | hmem'
    · subst heq
      refine ⟨e, ?_⟩
      rw [scoreCandidates, hfail]
    · cases hemb : get_embedding emb c0.resume with
      | error e0 =>
        refine ⟨e0, ?_⟩
        rw [scoreCandidates, hemb]
      | ok v0 =>
        rcases ih hmem' with ⟨e', he'⟩
        refine ⟨e', ?_⟩
        rw [scoreCandidates, hemb, he']

/-- A non-empty raw text always yields an entry of the candidate list,
with the cleaned text as its resume. -/
theorem build_candidate_list_mem (chat : ChatSvc) (extracted : List (String × String))
    (name raw : String) (hmem : (name, raw) ∈ extracted) (hraw : raw ≠ "") :
    ({ name := name, resume := clean_and_structure_resume chat raw } : Candidate) ∈
      build_candidate_list chat extracted := by
  induction extracted with
  | nil => cases hmem
  | cons p rest ih =>
    obtain ⟨n, r⟩ := p
    rcases List.mem_cons.mp hmem with heq | hmem'
    · obtain ⟨rfl, rfl⟩ := Prod.mk.inj heq.symm
      rw [build_candidate_list, if_neg hraw]
      exact List.mem_cons_self _ _
    · rw [build_candidate_list]
      by_cases hr : r = ""
      · rw [if_pos hr]
        exact ih hmem'
      · rw [if_neg hr]
        exact List.mem_cons_of_mem _ (ih hmem')

/-- Stability of the sort of `rank_candidates`, stated through filtering:
for each score value, the subsequence of output entries carrying that score
equals the corresponding subsequence of the unsorted scored list. -/
theorem filter_mergeSort_byScoreDesc (scored : List RankedCandidate) (s : ℚ) :
    (scored.mergeSort byScoreDesc).filter (fun r => decide (r.score = s)) =
      scored.filter (fun r => decide (r.score = s)) := by
  set p : RankedCandidate → Bool := fun r => decide (r.score = s) with hp
  have hmem : ∀ r ∈ scored.filter p, r.score = s := by
    intro r hr
    have h2 := (List.mem_filter.mp hr).2
    rw [hp] at h2
    exact of_decide_eq_true h2
  have hpair : (scored.filter p).Pairwise (fun a b => byScoreDesc a b = true) := by
    apply List.pairwise_of_forall_mem_list
    intro a ha b hb
    simp only [byScoreDesc, decide_eq_true_eq]
    rw [hmem a ha, hmem b hb]
  have hsub : (scored.filter p).Sublist (scored.mergeSort byScoreDesc) :=
    List.sublist_mergeSort byScoreDesc_trans byScoreDesc_total hpair (List.filter_sublist scored)
  have hself : (scored.filter p).filter p = scored.filter p :=
    List.filter_eq_self.mpr (fun a ha => (List.mem_filter.mp ha).2)
  have hsub2 : (scored.filter p).Sublist ((scored.mergeSort byScoreDesc).filter p) := by
    have := List.Sublist.filter p hsub
    rwa [hself] at this
  have hperm : ((scored.mergeSort byScoreDesc).filter p).Perm (scored.filter p) :=
    (List.mergeSort_perm scored byScoreDesc).filter p
  exact (hsub2.eq_of_length hperm.length_eq.symm).symm

/- ------------------------------------------------------------------ -/
/- Claim theorems                                                     -/
/- ------------------------------------------------------------------ -/

/-- C2 (counterexample): the claim says an embedding failure for one
candidate excludes only that candidate and never propagates out of the
ranking engine.  On the code it is false: with a service that fails on
candidate B's resume text, `rank_candidates` returns the error itself and
no ranked list at all — candidate A is not returned either. -/
theorem C2_counterexample :
    rank_candidates embFailStub cosStub ("the job") [candA, candB] =
      Except.error ("boom") := rfl

/-- C2 (amended): when the job-description embedding succeeds but the
remote embedding call fails for some candidate in the list, the failure
propagates out of `rank_candidates`: the whole run returns an error and no
ranked list is produced. -/
theorem C2_embedding_failure_aborts_batch {Vec : Type} (emb : EmbSvc Vec)
    (cos : Vec → Vec → ℚ) (jd : String) (cands : List Candidate)
    (jdVec : Vec) (c : Candidate) (e : String)
    (hjd : get_embedding emb jd = Except.ok jdVec)
    (hmem : c ∈ cands) (hfail : get_embedding emb c.resume = Except.error e) :
    ∃ e', rank_candidates emb cos jd cands = Except.error e' := by
  rcases scoreCandidates_error_of_mem emb cos jdVec cands c e hmem hfail with ⟨e', he'⟩
  refine ⟨e', ?_⟩
  simp only [rank_candidates, hjd, he']

/-- C2 (witness for the amended theorem). -/
theorem C2_witness :
    ∃ e', rank_candidates embFailStub cosStub ("the job") [candA, candB] =
      Except.error e' :=
  C2_embedding_failure_aborts_batch embFailStub cosStub ("the job") [candA, candB]
    ([7]) candB ("boom") (by rfl) (by simp) (by rfl)

/-- C3: the body of `extract_text_from_docx` concatenates the paragraphs'
text in document order, each paragraph followed by a newline, and trims the
result of leading and trailing whitespace.  (The surrounding module never
imports `docx`, so in Python the function raises `NameError` before this
body can run; see the code-bug record for this claim.) -/
theorem C3_docx_concatenation (paragraphs : List String) :
    extract_text_from_docx paragraphs =
      (String.join (paragraphs.map (fun p => p ++ "\n"))).trim := by
  simp only [extract_text_from_docx]
  congr 1
  have hjoin : String.join (paragraphs.map (fun p => p ++ "\n")) =
      (paragraphs.map (fun p => p ++ "\n")).foldl (fun r s => r ++ s) ("") := rfl
  have hfun : (fun (text p : String) => text ++ p ++ "\n") =
      fun (text p : String) => text ++ (p ++ "\n") := by
    funext t p
    rw [String.append_assoc]
  rw [hjoin, List.foldl_map, hfun]

/-- C5 (counterexample): the claim says a failed generation is returned as
an explicit failure, distinguishable from a successful draft.  On the code
it is false: a run whose remote call succeeds with draft text
"Error: boom" and a run whose remote call fails with message "boom" return
the exact same string, so the failure outcome is not distinguishable from a
successful draft. -/
theorem C5_counterexample :
    generate_compliant_feedback chatCollideStub ("jd") ("resume") =
        generate_compliant_feedback chatFailStub ("jd") ("resume") ∧
      chatCollideStub feedback_system_prompt (feedback_user_prompt ("jd") ("resume")) none =
        Except.ok ("Error: boom") ∧
      chatFailStub feedback_system_prompt (feedback_user_prompt ("jd") ("resume")) none =
        Except.error ("boom") :=
  ⟨rfl, rfl, rfl⟩

/-- C5 (amended): when the remote generation call fails,
`generate_compliant_feedback` returns the string "Error: " followed by the
exception message in place of a draft; the marker is an ordinary string in
the same channel as a successful draft, not a distinguishable failure
outcome. -/
theorem C5_failure_marker_string (chat : ChatSvc) (jd res e : String)
    (h : chat feedback_system_prompt (feedback_user_prompt jd res) none =
      Except.error e) :
    generate_compliant_feedback chat jd res = "Error: " ++ e := by
  simp only [generate_compliant_feedback, h]

/-- C5 (witness for the amended theorem). -/
theorem C5_witness :
    generate_compliant_feedback chatFailStub ("jd text") ("resume text") =
      ("Error: boom") :=
  C5_failure_marker_string chatFailStub ("jd text") ("resume text") ("boom") rfl

/-- C6: on an empty candidate list, `rank_candidates` returns the empty
list (not an error) whenever the job-description embedding succeeds, and
its behaviour depends only on the embedding service's answer for the job
description: any two services that agree on the job description produce the
same result, so no embedding call beyond the job description itself can
influence the run. -/
theorem C6_empty_candidate_list {Vec : Type} (emb : EmbSvc Vec)
    (cos : Vec → Vec → ℚ) (jd : String) :
    (∀ v, get_embedding emb jd = Except.ok v →
      rank_candidates emb cos jd [] = Except.ok []) ∧
    (∀ emb' : EmbSvc Vec, get_embedding emb' jd = get_embedding emb jd →
      rank_candidates emb' cos jd [] = rank_candidates emb cos jd []) := by
  constructor
  · intro v hv
    simp only [rank_candidates, hv, scoreCandidates]
    rw [List.mergeSort_nil]
  · intro emb' h
    simp only [rank_candidates, h, scoreCandidates]

/-- C6 (witness). -/
theorem C6_witness :
    rank_candidates embStub cosStub ("some jd") [] = Except.ok [] :=
  (C6_empty_candidate_list embStub cosStub ("some jd")).1 ([7]) (by rfl)

/-- C7: the PDF extractor seeks the stream back to its start before
reading, so its output does not depend on the prior stream position; the
output is the concatenation of the per-page extracted text in page order,
a page with no extractable text (`none`) contributing the empty string,
trimmed of leading and trailing whitespace. -/
theorem C7_pdf_extraction (reader : List Nat → List (Option String))
    (data : List Nat) (pos : Nat) :
    extract_text_from_pdf reader { data := data, pos := pos } =
      (String.join ((reader data).map orEmpty)).trim ∧
    ∀ pos', extract_text_from_pdf reader { data := data, pos := pos' } =
      extract_text_from_pdf reader { data := data, pos := pos } := by
  constructor
  · simp only [extract_text_from_pdf, seek, readAll, List.drop_zero]
    congr 1
    have hjoin : String.join ((reader data).map orEmpty) =
        ((reader data).map orEmpty).foldl (fun r s => r ++ s) ("") := rfl
    rw [hjoin, List.foldl_map]
  · intro pos'
    rfl

/-- C8: before any text is sent to the embedding service, every embedded
newline character is replaced by a space: `get_embedding` passes the
service exactly `replaceNewlines text`, whose characters are those of
`text` with each newline mapped to a space, and which contains no newline
character. -/
theorem C8_newline_replacement {Vec : Type} (emb : EmbSvc Vec) (text : String) :
    get_embedding emb text = emb (replaceNewlines text) ∧
    (replaceNewlines text).data =
      text.data.map (fun c => if c = '\n' then ' ' else c) ∧
    ((replaceNewlines text).data.all (fun c => c != '\n')) = true := by
  refine ⟨rfl, rfl, ?_⟩
  rw [List.all_eq_true]
  intro c hc
  rcases List.mem_map.mp hc with ⟨a, _, rfl⟩
  by_cases h : a = '\n' <;> simp [h]

/-- C10: `clean_and_structure_resume` is total: whatever the remote chat
call does, it returns a string — the service's message content on success,
and the string "Error during cleaning: " followed by the exception message
on failure; no exception propagates. -/
theorem C10_clean_total (chat : ChatSvc) (raw_resume_text : String) :
    (∀ t, chat cleaning_system_prompt raw_resume_text (some 0) = Except.ok t →
      clean_and_structure_resume chat raw_resume_text = t) ∧
    (∀ e, chat cleaning_system_prompt raw_resume_text (some 0) = Except.error e →
      clean_and_structure_resume chat raw_resume_text =
        "Error during cleaning: " ++ e) := by
  constructor <;> intro s h <;> simp only [clean_and_structure_resume, h]

/-- C10 (witness). -/
theorem C10_witness :
    clean_and_structure_resume chatFailStub ("raw resume text") =
      ("Error during cleaning: boom") :=
  (C10_clean_total chatFailStub ("raw resume text")).2 ("boom") rfl

/-- C1: a successful `rank_candidates` run returns the full candidate list
(one output entry per input candidate, names and resume texts preserved, as
a permutation of the scored list), sorted so that each adjacent pair of
scores is non-increasing, and stably: for every score value, the entries
carrying that score appear in the output in exactly their input order. -/
theorem C1_rank_descending_stable {Vec : Type} (emb : EmbSvc Vec)
    (cos : Vec → Vec → ℚ) (jd : String) (cands : List Candidate)
    (out : List RankedCandidate)
    (h : rank_candidates emb cos jd cands = Except.ok out) :
    ∃ jdVec scored,
      get_embedding emb jd = Except.ok jdVec ∧
      scoreCandidates emb cos jdVec cands = Except.ok scored ∧
      scored.map (fun r => (r.name, r.resume)) =
        cands.map (fun c => (c.name, c.resume)) ∧
      out.Perm scored ∧
      (∀ (i : Nat) (hi : i + 1 < out.length),
        (out.get ⟨i + 1, hi⟩).score ≤ (out.get ⟨i, Nat.lt_of_succ_lt hi⟩).score) ∧
      (∀ s : ℚ, out.filter (fun r => decide (r.score = s)) =
        scored.filter (fun r => decide (r.score = s))) := by
  rcases rank_candidates_ok_parts emb cos jd cands out h with
    ⟨jdVec, scored, hjd, hsc, hout⟩
  refine ⟨jdVec, scored, hjd, hsc,
    scoreCandidates_map emb cos jdVec cands scored hsc, ?_, ?_, ?_⟩
  · rw [hout]
    exact List.mergeSort_perm scored byScoreDesc
  · intro i hi
    have hpair : out.Pairwise (fun a b => byScoreDesc a b = true) := by
      rw [hout]
      exact List.sorted_mergeSort byScoreDesc_trans byScoreDesc_total scored
    have hlt : (⟨i, Nat.lt_of_succ_lt hi⟩ : Fin out.length) < ⟨i + 1, hi⟩ :=
      Fin.mk_lt_mk.mpr (Nat.lt_succ_self i)
    have h2 := List.pairwise_iff_get.mp hpair _ _ hlt
    simpa [byScoreDesc] using h2
  · intro s
    rw [hout]
    exact filter_mergeSort_byScoreDesc scored s

/-- C1 (witness): a concrete two-candidate run, input order [B, A], output
order [A, B] with scores 77 and 70. -/
theorem C1_witness :
    ∃ jdVec scored,
      get_embedding embStub ("the job") = Except.ok jdVec ∧
      scoreCandidates embStub cosStub jdVec [candB, candA] = Except.ok scored ∧
      scored.map (fun r => (r.name, r.resume)) =
        [candB, candA].map (fun c => (c.name, c.resume)) ∧
      List.Perm [rankedA, rankedB] scored ∧
      (∀ (i : Nat) (hi : i + 1 < [rankedA, rankedB].length),
        ([rankedA, rankedB].get ⟨i + 1, hi⟩).score ≤
          ([rankedA, rankedB].get ⟨i, Nat.lt_of_succ_lt hi⟩).score) ∧
      (∀ s : ℚ, [rankedA, rankedB].filter (fun r => decide (r.score = s)) =
        scored.filter (fun r => decide (r.score = s))) :=
  C1_rank_descending_stable embStub cosStub ("the job") [candB, candA]
    [rankedA, rankedB]
    (by norm_num [rank_candidates, scoreCandidates, get_embedding, replaceNewlines,
      embStub, cosStub, byScoreDesc, candA, candB, rankedA, rankedB,
      List.mergeSort, List.merge])

/-- C4: when the remote normalization call fails for a candidate whose raw
text is non-empty, the normalizer returns the marker string
"Error during cleaning: " followed by the message; the candidate is not
excluded — it enters the ranking input with the marker as its resume text —
and a successful ranking run still returns an entry for every processed
candidate. -/
theorem C4_normalization_failure_marker {Vec : Type} (chat : ChatSvc)
    (emb : EmbSvc Vec) (cos : Vec → Vec → ℚ) (jd : String)
    (extracted : List (String × String)) (name raw msg : String)
    (hmem : (name, raw) ∈ extracted) (hraw : raw ≠ "")
    (hfail : chat cleaning_system_prompt raw (some 0) = Except.error msg) :
    clean_and_structure_resume chat raw = "Error during cleaning: " ++ msg ∧
    ({ name := name, resume := "Error during cleaning: " ++ msg } : Candidate) ∈
      build_candidate_list chat extracted ∧
    (∀ out, rank_candidates emb cos jd (build_candidate_list chat extracted) =
        Except.ok out →
      ∀ p ∈ extracted, p.2 ≠ "" → ∃ rc ∈ out, rc.name = p.1) := by
  have hclean : clean_and_structure_resume chat raw =
      "Error during cleaning: " ++ msg := by
    simp only [clean_and_structure_resume, hfail]
  refine ⟨hclean, ?_, ?_⟩
  · have hin := build_candidate_list_mem chat extracted name raw hmem hraw
    rwa [hclean] at hin
  · intro out hout p hp hpne
    rcases rank_candidates_ok_parts emb cos jd _ out hout with
      ⟨jdVec, scored, hjd, hsc, houteq⟩
    have hm : ({ name := p.1, resume := clean_and_structure_resume chat p.2 } :
        Candidate) ∈ build_candidate_list chat extracted := by
      apply build_candidate_list_mem chat extracted p.1 p.2 ?_ hpne
      rw [Prod.mk.eta]
      exact hp
    rcases scoreCandidates_mem emb cos jdVec _ scored _ hsc hm with
      ⟨rc, hrc, hname, _⟩
    refine ⟨rc, ?_, hname⟩
    rw [houteq]
    exact List.mem_mergeSort.mpr hrc

/-- C4 (witness): two extracted files, normalization failing for both; the
marker candidate is in the list and a successful run ranks everyone. -/
theorem C4_witness :
    clean_and_structure_resume chatFailStub ("raw text A") =
      "Error during cleaning: " ++ "boom" ∧
    ({ name := "A", resume := "Error during cleaning: " ++ "boom" } : Candidate) ∈
      build_candidate_list chatFailStub [("A", "raw text A"), ("B", "raw text B")] ∧
    (∀ out, rank_candidates embStub cosStub ("the job")
        (build_candidate_list chatFailStub [("A", "raw text A"), ("B", "raw text B")]) =
        Except.ok out →
      ∀ p ∈ [("A", "raw text A"), ("B", "raw text B")], p.2 ≠ "" →
        ∃ rc ∈ out, rc.name = p.1) :=
  C4_normalization_failure_marker chatFailStub embStub cosStub ("the job")
    [("A", "raw text A"), ("B", "raw text B")] ("A") ("raw text A") ("boom")
    (by simp) (by decide) rfl

theorem dotProduct_self_nonneg (a : List ℝ) : 0 ≤ dotProduct a a := by
  induction a with
  | nil => simp [dotProduct]
  | cons x a ih =>
    have hx : 0 ≤ x * x := mul_self_nonneg x
    have hcons : dotProduct (x :: a) (x :: a) = x * x + dotProduct a a := by
      simp [dotProduct]
    rw [hcons]
    linarith

/-- Cauchy-Schwarz for list dot products, in squared form. -/
theorem dotProduct_sq_le (a : List ℝ) :
    ∀ b : List ℝ, dotProduct a b ^ 2 ≤ dotProduct a a * dotProduct b b := by
  induction a with
  | nil =>
    intro b
    simp [dotProduct]
  | cons x a ih =>
    intro b
    cases b with
    | nil => simp [dotProduct]
    | cons y b =>
      have h := ih b
      have hA := dotProduct_self_nonneg a
      have hB := dotProduct_self_nonneg b
      have e1 : dotProduct (x :: a) (y :: b) = x * y + dotProduct a b := by
        simp [dotProduct]
      have e2 : dotProduct (x :: a) (x :: a) = x * x + dotProduct a a := by
        simp [dotProduct]
      have e3 : dotProduct (y :: b) (y :: b) = y * y + dotProduct b b := by
        simp [dotProduct]
      rw [e1, e2, e3]
      rcases eq_or_lt_of_le hB with hB0 | hBpos
      · have hsq : dotProduct a b ^ 2 = 0 := by
          have hle : dotProduct a b ^ 2 ≤ 0 := by
            rw [← hB0] at h
            linarith [mul_nonneg hA (le_of_eq rfl : (0:ℝ) ≤ 0)]
          exact le_antisymm hle (sq_nonneg _)
        have hd : dotProduct a b = 0 := by
          exact pow_eq_zero_iff (by norm_num) |>.mp hsq
        rw [hd, ← hB0]
        nlinarith [mul_nonneg hA (sq_nonneg y)]
      · nlinarith [sq_nonneg (x * dotProduct b b - y * dotProduct a b),
          mul_nonneg (add_nonneg (sq_nonneg y) (le_of_lt hBpos)) (sub_nonneg.mpr h),
          hA, hBpos]

theorem abs_dotProduct_le (a b : List ℝ) :
    |dotProduct a b| ≤ l2norm a * l2norm b := by
  have h := dotProduct_sq_le a b
  have hA := dotProduct_self_nonneg a
  have habs : |dotProduct a b| = Real.sqrt (dotProduct a b ^ 2) :=
    (Real.sqrt_sq_eq_abs _).symm
  rw [habs, l2norm, l2norm, ← Real.sqrt_mul hA]
  exact Real.sqrt_le_sqrt h

/-- C9: for any two vectors, the computed cosine-similarity score
`dot(a,b) / (||a|| * ||b||)` lies in the interval [-1, 1]. -/
theorem C9_cosine_bound (a b : List ℝ) :
    cosine_similarity a b ∈ Set.Icc (-1 : ℝ) 1 := by
  have habs := abs_dotProduct_le a b
  have hnn : 0 ≤ l2norm a * l2norm b :=
    mul_nonneg (Real.sqrt_nonneg _) (Real.sqrt_nonneg _)
  rcases eq_or_lt_of_le hnn with hz | hpos
  · have hzero : cosine_similarity a b = 0 := by
      simp [cosine_similarity, ← hz]
    rw [Set.mem_Icc, hzero]
    constructor <;> norm_num
  · have h1 : |cosine_similarity a b| ≤ 1 := by
      rw [cosine_similarity, abs_div, abs_of_pos hpos]
      exact (div_le_one hpos).mpr habs
    exact Set.mem_Icc.mpr (abs_le.mp h1)

end ATS
